import Mathlib

/-!
Verification of the movie data-access layer (`internal/data/movies.go`)
against its natural-language specification.

The Go code is shallowly embedded: each repository operation becomes a Lean
function over an explicit store-response value (the outcome of the single
round trip the operation makes), and, where a claim needs it, over an
explicit relational store state.  Parts of the repository that are referenced
by `movies.go` but whose source is not present (the `Filters` resolver,
`calculateMetadata`, the validator package) are modelled from the spec and
marked as such in their doc comments.
-/

/-- Go `time.Time`, abstracted: a linear instant used for ordering and
zero-detection, plus the calendar year the instant falls in. -/
structure Time where
  instant : Int
  year : Int
deriving Repr, DecidableEq

/-- Go `t.IsZero()`: the zero `time.Time` value has the zero instant. -/
def Time.isZero (t : Time) : Bool := t.instant == 0

/-- Go `a.Before(b)`. -/
def Time.before (a b : Time) : Bool := a.instant < b.instant

/-- The `Movie` struct of `movies.go`.  `genres` is `Option (List String)`
because a Go slice distinguishes `nil` from an empty slice and
`ValidateMovie` tests `movie.Genres != nil`.  `rating` (a numeric score that
the layer only stores and never computes with) is carried as a rational. -/
structure Movie where
  id : Int
  title : String
  overview : String
  language : String
  releaseDate : Time
  rating : Rat
  posterURL : String
  backdropURL : String
  genres : Option (List String)
  version : Int
  createdAt : Time
deriving Repr, DecidableEq

/-- Go error values reaching this layer: the `sql.ErrNoRows` sentinel, the
two sentinels `ErrRecordNotFound` and `ErrEditConflict` this layer produces,
and any other storage-engine error, carried opaquely by a tag so that
"propagates unchanged" is expressible. -/
inductive GoError where
  | sqlNoRows
  | recordNotFound
  | editConflict
  | store (tag : String)
deriving Repr, DecidableEq

/-- A Go slice result: `none` is Go's `nil` slice, `some l` a non-nil slice
holding `l`. -/
abbrev GoSlice (α : Type) := Option (List α)

namespace MovieModel

/-- Lines 157-191 of `movies.go`, `MovieModel.Update`.  `scan` is the outcome
of `QueryRowContext(...).Scan(&movie.Version)` for the conditional
`UPDATE ... WHERE id = $9 AND version = $10 RETURNING version`: either the
returned new version or an error.  On success Go writes the scanned version
into the caller's struct; `sql.ErrNoRows` is translated to `ErrEditConflict`;
any other error is returned as is. -/
def Update (movie : Movie) (scan : Except GoError Int) : Except GoError Movie :=
  match scan with
  | .ok v => .ok { movie with version := v }
  | .error e => if e = .sqlNoRows then .error .editConflict else .error e

/-- Lines 56-96 of `movies.go`, `MovieModel.Get`.  Returns the Go pair
(result, number of store round trips made).  For `id < 1` the function
returns `ErrRecordNotFound` before building the query; otherwise `scan` is
the outcome of the single `QueryRowContext(...).Scan(...)` round trip, with
`sql.ErrNoRows` translated to `ErrRecordNotFound` and any other error
propagated unchanged. -/
def Get (id : Int) (scan : Except GoError Movie) : Except GoError Movie × Nat :=
  if id < 1 then (.error .recordNotFound, 0)
  else
    match scan with
    | .ok m => (.ok m, 1)
    | .error e =>
        if e = .sqlNoRows then (.error .recordNotFound, 1) else (.error e, 1)

/-- Lines 193-222 of `movies.go`, `MovieModel.Delete`.  Returns the Go pair
(error-or-nil, number of store round trips made).  `exec` is the outcome of
the single `ExecContext` round trip: an execution error, or a result whose
`RowsAffected()` call itself either errors or yields the affected-row
count.  Zero affected rows yield `ErrRecordNotFound`; any error is returned
unchanged; for `id < 1` the store is never reached. -/
def Delete (id : Int) (exec : Except GoError (Except GoError Int)) :
    Option GoError × Nat :=
  if id < 1 then (some .recordNotFound, 0)
  else
    match exec with
    | .error e => (some e, 1)
    | .ok (.error e) => (some e, 1)
    | .ok (.ok rowsAffected) =>
        if rowsAffected = 0 then (some .recordNotFound, 1) else (none, 1)

end MovieModel

/-- The relational store state this layer talks to: the `movies` table rows,
the next value of the id sequence (Postgres `bigserial`), and the store's
clock used for the `created_at` default. -/
structure DB where
  rows : List Movie
  nextId : Int
  now : Time
deriving Repr, DecidableEq

/-- Store semantics of the conditional write built by `Update` (lines
158-162): `UPDATE movies SET <caller fields>, version = version + 1 WHERE
id = $9 AND version = $10 RETURNING version`.  The scan outcome is
`sql.ErrNoRows` when no row matches both the id and the version token;
otherwise the matched row gets the caller's payload fields with its version
incremented by one, and the new version is returned. -/
def DB.execUpdate (db : DB) (movie : Movie) : Except GoError Int × DB :=
  match db.rows.find? (fun r => r.id == movie.id && r.version == movie.version) with
  | none => (.error .sqlNoRows, db)
  | some r =>
      let updated : Movie :=
        { movie with id := r.id, createdAt := r.createdAt, version := r.version + 1 }
      let newRows := db.rows.map
        (fun x => if x.id == movie.id && x.version == movie.version then updated else x)
      (.ok (r.version + 1), { db with rows := newRows })

namespace MovieModel

/-- The whole of `MovieModel.Update` run against a store state: the single
round trip `DB.execUpdate` produces the scan outcome consumed by `Update`. -/
def UpdateExec (db : DB) (movie : Movie) : Except GoError Movie × DB :=
  let out := db.execUpdate movie
  (Update movie out.1, out.2)

/-- Lines 32-54 of `movies.go`, `MovieModel.Insert` run against a store
state.  `engine` is `some e` when the store rejects the row (constraint
violation, connectivity failure, ...), propagated verbatim.  Otherwise the
store appends a row built from the caller-supplied payload with a freshly
assigned id, `created_at` from its clock and `version = 1`, and
`RETURNING id, created_at, version` is scanned back into exactly the
`ID`, `CreatedAt` and `Version` fields of the caller's struct. -/
def Insert (db : DB) (movie : Movie) (engine : Option GoError) :
    Except GoError Movie × DB :=
  match engine with
  | some e => (.error e, db)
  | none =>
      let row : Movie :=
        { movie with id := db.nextId, createdAt := db.now, version := 1 }
      (.ok { movie with id := db.nextId, createdAt := db.now, version := 1 },
        { db with rows := db.rows ++ [row], nextId := db.nextId + 1 })

end MovieModel

/-- Modelled from the spec: the `Filters` value object (its source file is
not under src/; only `movies.go`, its consumer, is).  Raw page, page size and
sort token (possibly prefixed with a dash for descending order), plus the
per-entity safe-list of accepted sort tokens. -/
structure Filters where
  Page : Int
  PageSize : Int
  /-- The Go field is named `Sort`, a reserved word here. -/
  SortValue : String
  SortSafelist : List String
deriving Repr, DecidableEq

/-- Modelled from the spec: `sortColumn()` "returns the bare column name with
the leading dash removed; fails fatally if the resolved value is somehow
absent from the safe-list".  `none` models the fatal (panic) outcome. -/
def Filters.sortColumn (f : Filters) : Option String :=
  if f.SortValue ∈ f.SortSafelist then
    some (if f.SortValue.startsWith "-" then f.SortValue.drop 1 else f.SortValue)
  else none

/-- Modelled from the spec: `sortDirection()` "returns ASC unless the raw
sort value begins with a dash, in which case DESC". -/
def Filters.sortDirection (f : Filters) : String :=
  if f.SortValue.startsWith "-" then "DESC" else "ASC"

/-- Modelled from the spec: `limit()` returns `pageSize`. -/
def Filters.limit (f : Filters) : Int := f.PageSize

/-- Modelled from the spec: `offset()` returns `(page - 1) * pageSize`. -/
def Filters.offset (f : Filters) : Int := (f.Page - 1) * f.PageSize

/-- Modelled from the spec: the `Metadata` summary (its source file is not
under src/): current page, page size, first page, last page, total record
count. -/
structure Metadata where
  CurrentPage : Int
  PageSize : Int
  FirstPage : Int
  LastPage : Int
  TotalRecords : Int
deriving Repr, DecidableEq

/-- The zero `Metadata{}` value. -/
def Metadata.zero : Metadata := ⟨0, 0, 0, 0, 0⟩

/-- Modelled from the spec: `calculateMetadata(totalRecords, page, pageSize)`
(its source file is not under src/) — "pure function; returns zero-valued
metadata when totalRecords == 0; otherwise computes firstPage = 1, lastPage =
ceil(totalRecords / pageSize)". -/
def calculateMetadata (totalRecords page pageSize : Int) : Metadata :=
  if totalRecords = 0 then Metadata.zero
  else
    { CurrentPage := page
      PageSize := pageSize
      FirstPage := 1
      LastPage := (totalRecords + pageSize - 1) / pageSize
      TotalRecords := totalRecords }

/-- The `WHERE` clause of the query built by `GetAll` (lines 102-103):
`(to_tsvector('simple', title) @@ plainto_tsquery('simple', $1) OR $1 = '')
AND (genres @> $2 OR $2 = '{}')`.  `fts` abstracts the Postgres full-text
match of a row title against the query string; array containment `@>` holds
when every element of the filter occurs in the stored array. -/
def matchesWhere (fts : String → String → Bool) (titleQ : String)
    (genreF : List String) (r : Movie) : Bool :=
  (fts r.title titleQ || titleQ == "") &&
    (genreF.all (fun g => (r.genres.getD []).contains g) || genreF == [])

/-- The `ORDER BY <col> <dir>, id ASC` clause of the query (line 104) as a
boolean order on rows.  `colVal` abstracts reading the sort column of a row
as an orderable value; `ascending` is true for `ASC`. -/
def rowLE (colVal : String → Movie → Int) (col : String) (ascending : Bool)
    (a b : Movie) : Bool :=
  if ascending then
    colVal col a < colVal col b || (colVal col a == colVal col b && a.id ≤ b.id)
  else
    colVal col b < colVal col a || (colVal col a == colVal col b && a.id ≤ b.id)

/-- Store semantics of the single SQL query built by `GetAll` (lines 99-106)
against table contents `tbl`: filter by the `WHERE` clause, order by the
resolved sort column and direction with `id ASC` as tie-break, apply
`LIMIT $3 OFFSET $4`.  `none` models the resolver failing fatally on a sort
token outside the safe-list (no query text is ever built from it). -/
def getAllQuery (fts : String → String → Bool) (colVal : String → Movie → Int)
    (tbl : List Movie) (titleQ : String) (genreF : List String) (f : Filters) :
    Option (List Movie) :=
  match f.sortColumn with
  | none => none
  | some col =>
      let selected := tbl.filter (matchesWhere fts titleQ genreF)
      let sorted := selected.mergeSort (rowLE colVal col (f.sortDirection == "ASC"))
      some ((sorted.drop f.offset.toNat).take f.limit.toNat)

/-- The result set handed back by `QueryContext` for `GetAll`: one entry per
returned row — either the scanned values (the window count `count(*) OVER()`
and the mapped movie) or a scan (row-mapping) error — plus the outcome of
the final `rows.Err()` check. -/
structure RowsResult where
  rows : List (Except GoError (Int × Movie))
  iterErr : Option GoError
deriving Repr

/-- The `rows.Next()` loop of `GetAll` (lines 120-146): `totalRecords` starts
at 0 and is overwritten by each scanned row's window count; movies are
appended in row order; the first scan error aborts the loop with that
error. -/
def getAllLoop :
    List (Except GoError (Int × Movie)) → Int → List Movie →
      Except GoError (Int × List Movie)
  | [], total, acc => .ok (total, acc)
  | .error e :: _, _, _ => .error e
  | .ok (cnt, m) :: rest, _, acc => getAllLoop rest cnt (acc ++ [m])

namespace MovieModel

/-- Lines 98-155 of `movies.go`, `MovieModel.GetAll`, over the outcome of its
single `QueryContext` round trip.  Returns the Go triple
`([]*Movie, Metadata, error)`: a query-execution error, a scan error, or a
`rows.Err()` error each yield `(nil, Metadata{}, err)`; otherwise the movies
collected by the loop (starting from the non-nil empty slice `[]*Movie{}`)
and `calculateMetadata(totalRecords, filters.Page, filters.PageSize)`. -/
def GetAll (f : Filters) (resp : Except GoError RowsResult) :
    GoSlice Movie × Metadata × Option GoError :=
  match resp with
  | .error e => (none, Metadata.zero, some e)
  | .ok rr =>
      match getAllLoop rr.rows 0 [] with
      | .error e => (none, Metadata.zero, some e)
      | .ok (total, movies) =>
          match rr.iterErr with
          | some e => (none, Metadata.zero, some e)
          | none => (some movies, calculateMetadata total f.Page f.PageSize, none)

end MovieModel

/-- An honest store running the `GetAll` query: each returned row carries the
window count `count(*) OVER()`, which Postgres evaluates after `WHERE` but
before `LIMIT`/`OFFSET` — the number of rows of `tbl` matching the `WHERE`
clause — and row mapping and iteration succeed. -/
def DB.execGetAll (fts : String → String → Bool) (colVal : String → Movie → Int)
    (tbl : List Movie) (titleQ : String) (genreF : List String) (f : Filters) :
    Option RowsResult :=
  (getAllQuery fts colVal tbl titleQ genreF f).map fun page =>
    { rows := page.map
        (fun m => .ok ((tbl.filter (matchesWhere fts titleQ genreF)).length, m))
      iterErr := none }

namespace validator

/-- Modelled from the spec: the validator collaborator (its package is not
under src/) — a shared value that "appends human-readable field/message
pairs, collecting all violations". -/
structure Validator where
  Errors : List (String × String)
deriving Repr, DecidableEq

/-- Modelled from the spec: the `check(condition, field, message)` contract —
records the field/message pair exactly when the condition fails. -/
def Validator.Check (v : Validator) (cond : Bool) (field message : String) :
    Validator :=
  if cond then v else { Errors := v.Errors ++ [(field, message)] }

/-- Modelled from the spec: `validator.Unique(values)` — true when the
sequence is "free of duplicates". -/
def Unique : List String → Bool
  | [] => true
  | x :: xs => !(xs.contains x) && Unique xs

end validator

/-- Lines 224-236 of `movies.go`, `ValidateMovie`.  `now` is the value of
`time.Now()` at the call.  Go `len` on a string counts bytes
(`utf8ByteSize`) and on a nil slice yields 0 (`getD []`). -/
def ValidateMovie (now : Time) (v : validator.Validator) (movie : Movie) :
    validator.Validator :=
  ((((((((v.Check (movie.title != "") "title" "must be provided").Check
    (decide (movie.title.utf8ByteSize ≤ 500)) "title"
      "must not be more than 500 bytes long").Check
    (!movie.releaseDate.isZero) "release_date" "must be provided").Check
    (decide (1888 ≤ movie.releaseDate.year)) "release_date"
      "year must be greater than 1888").Check
    (movie.releaseDate.before now) "release_date"
      "must not be in the future").Check
    movie.genres.isSome "genres" "must be provided").Check
    (decide (1 ≤ (movie.genres.getD []).length)) "genres"
      "must contain at least 1 genre").Check
    (decide ((movie.genres.getD []).length ≤ 10)) "genres"
      "must not contain more than 10 genres").Check
    (validator.Unique (movie.genres.getD [])) "genres"
      "must not contain duplicate values"

/-- Violations recorded by `ValidateMovie`, one per failed rule, in source
order.  Used to state that all rules are evaluated without
short-circuiting. -/
def movieViolations (now : Time) (movie : Movie) : List (String × String) :=
  (if movie.title != "" then [] else [("title", "must be provided")]) ++
  (if decide (movie.title.utf8ByteSize ≤ 500) then []
   else [("title", "must not be more than 500 bytes long")]) ++
  (if !movie.releaseDate.isZero then []
   else [("release_date", "must be provided")]) ++
  (if decide (1888 ≤ movie.releaseDate.year) then []
   else [("release_date", "year must be greater than 1888")]) ++
  (if movie.releaseDate.before now then []
   else [("release_date", "must not be in the future")]) ++
  (if movie.genres.isSome then [] else [("genres", "must be provided")]) ++
  (if decide (1 ≤ (movie.genres.getD []).length) then []
   else [("genres", "must contain at least 1 genre")]) ++
  (if decide ((movie.genres.getD []).length ≤ 10) then []
   else [("genres", "must not contain more than 10 genres")]) ++
  (if validator.Unique (movie.genres.getD []) then []
   else [("genres", "must not contain duplicate values")])

/-- The running total after `GetAll`'s scan loop: `totalRecords` starts at
the accumulator and is overwritten by each row's window count, so it ends at
the last row's count. -/
def lastCount : List (Int × Movie) → Int → Int
  | [], t => t
  | p :: rest, _ => lastCount rest p.1

theorem validator_check_errors (v : validator.Validator) (c : Bool)
    (f m : String) :
    (v.Check c f m).Errors = v.Errors ++ (if c then [] else [(f, m)]) := by
  unfold validator.Validator.Check
  split <;> simp

/-- C1: `Update` translates the no-matching-row scan outcome (which the
store produces exactly when no row carries both the caller's id and its
version token) to `EditConflict`; any other execution error is returned
unchanged; no outcome of `Update` is `RecordNotFound`. -/
theorem update_error_translation (db : DB) (movie : Movie) (e : GoError)
    (he : e ≠ .sqlNoRows) :
    MovieModel.Update movie (.error .sqlNoRows) = .error .editConflict ∧
    MovieModel.Update movie (.error e) = .error e ∧
    (∀ scan : Except GoError Int, scan ≠ .error .recordNotFound →
      MovieModel.Update movie scan ≠ .error .recordNotFound) ∧
    ((∀ r ∈ db.rows, ¬(r.id = movie.id ∧ r.version = movie.version)) →
      (MovieModel.UpdateExec db movie).1 = .error .editConflict) := by
  refine ⟨by simp [MovieModel.Update], by simp [MovieModel.Update, he], ?_, ?_⟩
  · intro scan hscan
    match scan with
    | .ok v => simp [MovieModel.Update]
    | .error e2 =>
        simp only [MovieModel.Update]
        have : e2 ≠ .recordNotFound := by
          intro hc
          exact hscan (by rw [hc])
        split <;> simp [this]
  · intro hnone
    have hfind : db.rows.find?
        (fun r => r.id == movie.id && r.version == movie.version) = none := by
      rw [List.find?_eq_none]
      intro r hr
      have := hnone r hr
      simp only [Bool.and_eq_true, beq_iff_eq]
      tauto
    simp [MovieModel.UpdateExec, DB.execUpdate, hfind, MovieModel.Update]

theorem update_error_translation_witness :
    MovieModel.Update
        ⟨1, "t", "o", "l", ⟨5, 2000⟩, 7, "p", "b", some ["a"], 3, ⟨1, 1999⟩⟩
        (.error .sqlNoRows) = .error .editConflict ∧
    MovieModel.Update
        ⟨1, "t", "o", "l", ⟨5, 2000⟩, 7, "p", "b", some ["a"], 3, ⟨1, 1999⟩⟩
        (.error (.store "boom")) = .error (.store "boom") ∧
    (∀ scan : Except GoError Int, scan ≠ .error .recordNotFound →
      MovieModel.Update
        ⟨1, "t", "o", "l", ⟨5, 2000⟩, 7, "p", "b", some ["a"], 3, ⟨1, 1999⟩⟩
        scan ≠ .error .recordNotFound) ∧
    ((∀ r ∈ (DB.mk [] 1 ⟨9, 2020⟩).rows,
        ¬(r.id = (1 : Int) ∧ r.version = (3 : Int))) →
      (MovieModel.UpdateExec (DB.mk [] 1 ⟨9, 2020⟩)
        ⟨1, "t", "o", "l", ⟨5, 2000⟩, 7, "p", "b", some ["a"], 3, ⟨1, 1999⟩⟩).1 =
        .error .editConflict) :=
  update_error_translation (DB.mk [] 1 ⟨9, 2020⟩)
    ⟨1, "t", "o", "l", ⟨5, 2000⟩, 7, "p", "b", some ["a"], 3, ⟨1, 1999⟩⟩
    (.store "boom") (by simp)

/-- C2: for every `id ≤ 0`, `Get` returns `RecordNotFound` and `Delete`
returns `RecordNotFound`, whatever the store would have answered, and in
both cases zero store round trips are made. -/
theorem get_delete_short_circuit (id : Int) (scan : Except GoError Movie)
    (exec : Except GoError (Except GoError Int)) (h : id ≤ 0) :
    MovieModel.Get id scan = (.error .recordNotFound, 0) ∧
    MovieModel.Delete id exec = (some .recordNotFound, 0) := by
  have h1 : id < 1 := by omega
  constructor
  · simp [MovieModel.Get, h1]
  · simp [MovieModel.Delete, h1]

theorem get_delete_short_circuit_witness :
    MovieModel.Get 0 (.error (.store "never sent")) =
      (.error .recordNotFound, 0) ∧
    MovieModel.Delete 0 (.ok (.ok 1)) = (some .recordNotFound, 0) :=
  get_delete_short_circuit 0 (.error (.store "never sent")) (.ok (.ok 1))
    (by omega)

/-- C8: for `id ≥ 1`, `Delete` maps a clean execution affecting zero rows to
`RecordNotFound`, returns any execution error (from `ExecContext` or from
`RowsAffected`) unchanged, and returns no error when exactly one row is
affected. -/
theorem delete_affected_rows (id : Int) (e : GoError) (n : Int)
    (h : 1 ≤ id) :
    MovieModel.Delete id (.ok (.ok 0)) = (some .recordNotFound, 1) ∧
    MovieModel.Delete id (.error e) = (some e, 1) ∧
    MovieModel.Delete id (.ok (.error e)) = (some e, 1) ∧
    (n = 1 → MovieModel.Delete id (.ok (.ok n)) = (none, 1)) := by
  have h1 : ¬ id < 1 := by omega
  refine ⟨by simp [MovieModel.Delete, h1], by simp [MovieModel.Delete, h1],
    by simp [MovieModel.Delete, h1], ?_⟩
  intro hn
  subst hn
  simp [MovieModel.Delete, h1]

theorem delete_affected_rows_witness :
    MovieModel.Delete 7 (.ok (.ok 0)) = (some .recordNotFound, 1) ∧
    MovieModel.Delete 7 (.error (.store "down")) = (some (.store "down"), 1) ∧
    MovieModel.Delete 7 (.ok (.error (.store "down"))) =
      (some (.store "down"), 1) ∧
    ((1 : Int) = 1 → MovieModel.Delete 7 (.ok (.ok 1)) = (none, 1)) :=
  delete_affected_rows 7 (.store "down") 1 (by omega)

/-- C7: a successful `Insert` hands back the caller's record with a newly
assigned positive id (fresh with respect to the rows in the store), a
creation timestamp populated from the store's clock, and version 1, while
every payload field (title, overview, language, release date, rating,
poster URL, backdrop URL, genres) is left unchanged. -/
theorem insert_mutation_and_frame (db : DB) (movie : Movie)
    (hpos : 0 < db.nextId) (hfresh : ∀ r ∈ db.rows, r.id ≠ db.nextId) :
    ∃ movie2 db2, MovieModel.Insert db movie none = (.ok movie2, db2) ∧
      0 < movie2.id ∧
      (∀ r ∈ db.rows, r.id ≠ movie2.id) ∧
      movie2.createdAt = db.now ∧
      movie2.version = 1 ∧
      movie2.title = movie.title ∧
      movie2.overview = movie.overview ∧
      movie2.language = movie.language ∧
      movie2.releaseDate = movie.releaseDate ∧
      movie2.rating = movie.rating ∧
      movie2.posterURL = movie.posterURL ∧
      movie2.backdropURL = movie.backdropURL ∧
      movie2.genres = movie.genres := by
  refine ⟨{ movie with id := db.nextId, createdAt := db.now, version := 1 },
    { db with
        rows := db.rows ++
          [{ movie with id := db.nextId, createdAt := db.now, version := 1 }]
        nextId := db.nextId + 1 }, ?_⟩
  simp [MovieModel.Insert]
  exact ⟨hpos, hfresh⟩

theorem insert_mutation_and_frame_witness :
    ∃ movie2 db2,
      MovieModel.Insert (DB.mk [] 4 ⟨9, 2020⟩)
        ⟨0, "t", "o", "l", ⟨5, 2000⟩, 7, "p", "b", some ["a"], 0, ⟨0, 1⟩⟩
        none = (.ok movie2, db2) ∧
      0 < movie2.id ∧
      (∀ r ∈ (DB.mk [] 4 ⟨9, 2020⟩).rows, r.id ≠ movie2.id) ∧
      movie2.createdAt = (DB.mk [] 4 ⟨9, 2020⟩).now ∧
      movie2.version = 1 ∧
      movie2.title = "t" ∧
      movie2.overview = "o" ∧
      movie2.language = "l" ∧
      movie2.releaseDate = ⟨5, 2000⟩ ∧
      movie2.rating = 7 ∧
      movie2.posterURL = "p" ∧
      movie2.backdropURL = "b" ∧
      movie2.genres = some ["a"] :=
  insert_mutation_and_frame (DB.mk [] 4 ⟨9, 2020⟩)
    ⟨0, "t", "o", "l", ⟨5, 2000⟩, 7, "p", "b", some ["a"], 0, ⟨0, 1⟩⟩
    (by decide) (by simp)

/-- C3: when `Update` succeeds against the store, some stored row carried
the caller's id and version token; afterwards the store holds a row with
that id whose version is the old stored version plus one, and the record
handed back to the caller carries exactly that new stored version. -/
theorem update_success_version (db : DB) (movie movie2 : Movie) (db2 : DB)
    (h : MovieModel.UpdateExec db movie = (.ok movie2, db2)) :
    movie2.version = movie.version + 1 ∧
    ∃ r ∈ db.rows, r.id = movie.id ∧ r.version = movie.version ∧
      movie2.version = r.version + 1 ∧
      ∃ r2 ∈ db2.rows, r2.id = movie.id ∧ r2.version = r.version + 1 := by
  unfold MovieModel.UpdateExec DB.execUpdate at h
  cases hfind : db.rows.find?
      (fun r => r.id == movie.id && r.version == movie.version) with
  | none =>
      rw [hfind] at h
      simp [MovieModel.Update] at h
  | some r =>
      rw [hfind] at h
      simp only [MovieModel.Update] at h
      have hmem : r ∈ db.rows := List.mem_of_find?_eq_some hfind
      have hpred := List.find?_some hfind
      simp only [Bool.and_eq_true, beq_iff_eq] at hpred
      obtain ⟨hrid, hrver⟩ := hpred
      have hm2 : Except.ok ({ movie with version := r.version + 1 } : Movie) =
          Except.ok movie2 := congrArg Prod.fst h
      have hdb2 := congrArg Prod.snd h
      dsimp only at hdb2
      have hmovie2 : movie2 = { movie with version := r.version + 1 } :=
        (Except.ok.injEq .. ▸ hm2).symm
      set updated : Movie :=
        { movie with id := r.id, createdAt := r.createdAt, version := r.version + 1 }
      refine ⟨by rw [hmovie2, hrver], r, hmem, hrid, hrver, by rw [hmovie2],
        updated, ?_, by simpa using hrid, rfl⟩
      rw [← hdb2]
      simp only [List.mem_map]
      refine ⟨r, hmem, ?_⟩
      simp [hrid, hrver]

theorem update_success_version_witness :
    (⟨1, "t2", "o2", "l2", ⟨5, 2000⟩, 7, "p2", "b2", some ["a"], 4, ⟨0, 1⟩⟩ :
        Movie).version =
      (⟨1, "t2", "o2", "l2", ⟨5, 2000⟩, 7, "p2", "b2", some ["a"], 3, ⟨0, 1⟩⟩ :
        Movie).version + 1 ∧
    ∃ r ∈ (DB.mk
        [⟨1, "t", "o", "l", ⟨4, 1999⟩, 6, "p", "b", some ["g"], 3, ⟨2, 1998⟩⟩]
        2 ⟨9, 2020⟩).rows,
      r.id = (⟨1, "t2", "o2", "l2", ⟨5, 2000⟩, 7, "p2", "b2", some ["a"], 3,
        ⟨0, 1⟩⟩ : Movie).id ∧
      r.version = (⟨1, "t2", "o2", "l2", ⟨5, 2000⟩, 7, "p2", "b2", some ["a"],
        3, ⟨0, 1⟩⟩ : Movie).version ∧
      (⟨1, "t2", "o2", "l2", ⟨5, 2000⟩, 7, "p2", "b2", some ["a"], 4, ⟨0, 1⟩⟩ :
        Movie).version = r.version + 1 ∧
      ∃ r2 ∈ (DB.mk
          [⟨1, "t2", "o2", "l2", ⟨5, 2000⟩, 7, "p2", "b2", some ["a"], 4,
            ⟨2, 1998⟩⟩] 2 ⟨9, 2020⟩).rows,
        r2.id = (⟨1, "t2", "o2", "l2", ⟨5, 2000⟩, 7, "p2", "b2", some ["a"], 3,
          ⟨0, 1⟩⟩ : Movie).id ∧
        r2.version = r.version + 1 :=
  update_success_version
    (DB.mk
      [⟨1, "t", "o", "l", ⟨4, 1999⟩, 6, "p", "b", some ["g"], 3, ⟨2, 1998⟩⟩]
      2 ⟨9, 2020⟩)
    ⟨1, "t2", "o2", "l2", ⟨5, 2000⟩, 7, "p2", "b2", some ["a"], 3, ⟨0, 1⟩⟩
    ⟨1, "t2", "o2", "l2", ⟨5, 2000⟩, 7, "p2", "b2", some ["a"], 4, ⟨0, 1⟩⟩
    (DB.mk
      [⟨1, "t2", "o2", "l2", ⟨5, 2000⟩, 7, "p2", "b2", some ["a"], 4,
        ⟨2, 1998⟩⟩] 2 ⟨9, 2020⟩)
    rfl

theorem ite_nil_singleton (P : Prop) [Decidable P] (x : String × String) :
    ((if P then ([] : List (String × String)) else [x]) = []) ↔ P := by
  split <;> simp_all

/-- C6: `ValidateMovie` is total (it reports instead of failing), evaluates
all nine field rules without short-circuiting — appending to the shared
validator exactly one field/message pair per failed rule, in source order —
and appends nothing exactly when every rule holds: title non-empty and at
most 500 bytes; release date present, year at least 1888, strictly before
now; genres present (non-nil), with between 1 and 10 entries and no
duplicates. -/
theorem validateMovie_rules (now : Time) (v : validator.Validator)
    (movie : Movie) :
    (ValidateMovie now v movie).Errors = v.Errors ++ movieViolations now movie ∧
    (movieViolations now movie = [] ↔
      (movie.title ≠ "" ∧ movie.title.utf8ByteSize ≤ 500 ∧
       movie.releaseDate.isZero = false ∧ 1888 ≤ movie.releaseDate.year ∧
       movie.releaseDate.before now = true ∧ movie.genres.isSome = true ∧
       1 ≤ (movie.genres.getD []).length ∧
       (movie.genres.getD []).length ≤ 10 ∧
       validator.Unique (movie.genres.getD []) = true)) := by
  constructor
  · simp only [ValidateMovie, validator_check_errors, movieViolations,
      List.append_assoc]
  · simp only [movieViolations, List.append_eq_nil, ite_nil_singleton,
      bne_iff_ne, ne_eq, decide_eq_true_eq, Bool.not_eq_true']
    tauto

/-- C9: `calculateMetadata` is a pure function; with total 0 it returns the
all-zero metadata whatever the page and page size; with a positive total it
returns first page 1 and last page the ceiling of total divided by page
size; in particular at (17, 2, 5) it yields first page 1 and last page 4. -/
theorem calculateMetadata_spec (t p ps : Int) (ht : 0 < t) (hps : 0 < ps) :
    (∀ p2 ps2 : Int, calculateMetadata 0 p2 ps2 = Metadata.zero) ∧
    (calculateMetadata t p ps).FirstPage = 1 ∧
    (calculateMetadata t p ps).LastPage = ⌈(t : ℚ) / (ps : ℚ)⌉ ∧
    (calculateMetadata 17 2 5).FirstPage = 1 ∧
    (calculateMetadata 17 2 5).LastPage = 4 := by
  have htne : t ≠ 0 := by omega
  refine ⟨fun p2 ps2 => by simp [calculateMetadata], by simp [calculateMetadata, htne], ?_,
    by decide, by decide⟩
  simp only [calculateMetadata, htne, if_false]
  symm
  rw [Int.ceil_eq_iff]
  have h1 := Int.ediv_add_emod (t + ps - 1) ps
  have h2 := Int.emod_nonneg (t + ps - 1) (by omega : ps ≠ 0)
  have h3 := Int.emod_lt_of_pos (t + ps - 1) hps
  have hq : (0 : ℚ) < (ps : ℚ) := by exact_mod_cast hps
  constructor
  · rw [lt_div_iff hq]
    have hi : ((t + ps - 1) / ps - 1) * ps < t := by
      have hr : ((t + ps - 1) / ps - 1) * ps =
          ps * ((t + ps - 1) / ps) - ps := by ring
      omega
    exact_mod_cast hi
  · rw [div_le_iff hq]
    have hi : t ≤ ((t + ps - 1) / ps) * ps := by
      have hr : ((t + ps - 1) / ps) * ps = ps * ((t + ps - 1) / ps) := by ring
      omega
    exact_mod_cast hi

theorem calculateMetadata_spec_witness :
    (∀ p2 ps2 : Int, calculateMetadata 0 p2 ps2 = Metadata.zero) ∧
    (calculateMetadata 17 2 5).FirstPage = 1 ∧
    (calculateMetadata 17 2 5).LastPage = ⌈(17 : ℚ) / (5 : ℚ)⌉ ∧
    (calculateMetadata 17 2 5).FirstPage = 1 ∧
    (calculateMetadata 17 2 5).LastPage = 4 :=
  calculateMetadata_spec 17 2 5 (by decide) (by decide)

theorem getAllLoop_all_ok (rows : List (Int × Movie)) :
    ∀ (t : Int) (acc : List Movie),
      getAllLoop (rows.map Except.ok) t acc =
        .ok (lastCount rows t, acc ++ rows.map Prod.snd) := by
  induction rows with
  | nil => intro t acc; simp [getAllLoop, lastCount]
  | cons p rest ih =>
      intro t acc
      simp only [List.map_cons, getAllLoop, lastCount, ih, List.map]
      simp

theorem getAllLoop_first_error (pre : List (Int × Movie)) (e : GoError)
    (rest : List (Except GoError (Int × Movie))) :
    ∀ (t : Int) (acc : List Movie),
      getAllLoop (pre.map Except.ok ++ .error e :: rest) t acc = .error e := by
  induction pre with
  | nil => intro t acc; simp [getAllLoop]
  | cons p tail ih =>
      intro t acc
      simp only [List.map_cons, List.cons_append, getAllLoop]
      exact ih p.1 (acc ++ [p.2])

/-- C5: the four exhaustive shapes of a `GetAll` round-trip outcome.  A
query-execution error, a scan error on any row (everything before it having
scanned cleanly), or a final iteration error each make the whole call return
that very error with a nil slice and zero-valued metadata — no partial
results.  When every row scans cleanly and iteration closes cleanly, the
call returns a non-nil (possibly empty) slice of the scanned movies in row
order, no error, and metadata computed by `calculateMetadata` from the total
extracted from the rows (the last row's window count, 0 when no row was
returned) together with the requested page and page size. -/
theorem getAll_outcomes (f : Filters) (e : GoError)
    (good pre : List (Int × Movie))
    (rest : List (Except GoError (Int × Movie))) (ierr : Option GoError) :
    MovieModel.GetAll f (.error e) = (none, Metadata.zero, some e) ∧
    MovieModel.GetAll f (.ok ⟨pre.map .ok ++ .error e :: rest, ierr⟩) =
      (none, Metadata.zero, some e) ∧
    MovieModel.GetAll f (.ok ⟨good.map .ok, some e⟩) =
      (none, Metadata.zero, some e) ∧
    MovieModel.GetAll f (.ok ⟨good.map .ok, none⟩) =
      (some (good.map Prod.snd),
        calculateMetadata (lastCount good 0) f.Page f.PageSize, none) := by
  refine ⟨rfl, ?_, ?_, ?_⟩
  · simp [MovieModel.GetAll, getAllLoop_first_error]
  · simp [MovieModel.GetAll, getAllLoop_all_ok]
  · simp [MovieModel.GetAll, getAllLoop_all_ok]

theorem rowLE_trans (colVal : String → Movie → Int) (col : String)
    (asc : Bool) :
    ∀ a b c : Movie, rowLE colVal col asc a b → rowLE colVal col asc b c →
      rowLE colVal col asc a c := by
  intro a b c hab hbc
  unfold rowLE at *
  cases asc <;>
    simp only [if_true, if_false, Bool.false_eq_true, Bool.or_eq_true,
      Bool.and_eq_true, decide_eq_true_eq, beq_iff_eq] at hab hbc ⊢ <;>
    omega

theorem rowLE_total (colVal : String → Movie → Int) (col : String)
    (asc : Bool) :
    ∀ a b : Movie, rowLE colVal col asc a b || rowLE colVal col asc b a := by
  intro a b
  unfold rowLE
  cases asc <;>
    simp only [if_true, if_false, Bool.false_eq_true, Bool.or_eq_true,
      Bool.and_eq_true, decide_eq_true_eq, beq_iff_eq] <;>
    omega

/-- C4: with a safe-listed sort token, the single query `GetAll` builds
selects exactly the table rows passing the `WHERE` clause — full-text title
match with an empty title query matching every row, and genre-superset
containment with an empty genre filter matching every row — and hands back
the selection ordered by the resolved sort column in the resolved direction
with id ascending as tie-break, after applying the resolver's limit and
offset. -/
theorem getAll_query_spec (fts : String → String → Bool)
    (colVal : String → Movie → Int) (tbl : List Movie) (titleQ : String)
    (genreF : List String) (f : Filters)
    (hsort : f.SortValue ∈ f.SortSafelist) :
    ∃ col sorted,
      f.sortColumn = some col ∧
      getAllQuery fts colVal tbl titleQ genreF f =
        some ((sorted.drop f.offset.toNat).take f.limit.toNat) ∧
      List.Perm sorted (tbl.filter (matchesWhere fts titleQ genreF)) ∧
      sorted.Pairwise
        (fun a b => rowLE colVal col (f.sortDirection == "ASC") a b = true) ∧
      (∀ r : Movie, matchesWhere fts titleQ genreF r = true ↔
        ((titleQ = "" ∨ fts r.title titleQ = true) ∧
         (genreF = [] ∨ ∀ g ∈ genreF, g ∈ r.genres.getD []))) := by
  have hcol : f.sortColumn = some
      (if f.SortValue.startsWith "-" then f.SortValue.drop 1
       else f.SortValue) := by
    simp [Filters.sortColumn, hsort]
  refine ⟨_,
    (tbl.filter (matchesWhere fts titleQ genreF)).mergeSort
      (rowLE colVal
        (if f.SortValue.startsWith "-" then f.SortValue.drop 1
         else f.SortValue)
        (f.sortDirection == "ASC")),
    hcol, ?_, List.mergeSort_perm _ _, ?_, ?_⟩
  · unfold getAllQuery
    rw [hcol]
  · exact List.sorted_mergeSort (rowLE_trans colVal _ _) (rowLE_total colVal _ _) _
  · intro r
    simp only [matchesWhere, Bool.and_eq_true, Bool.or_eq_true, beq_iff_eq,
      List.all_eq_true, List.contains_eq_any_beq, List.any_eq_true,
      beq_iff_eq]
    constructor
    · rintro ⟨h1, h2⟩
      refine ⟨by tauto, ?_⟩
      rcases h2 with h2 | h2
      · right
        intro g hg
        obtain ⟨y, hy, rfl⟩ := h2 g hg
        exact hy
      · left
        exact h2
    · rintro ⟨h1, h2⟩
      refine ⟨by tauto, ?_⟩
      rcases h2 with h2 | h2
      · right
        exact h2
      · left
        intro g hg
        exact ⟨g, h2 g hg, rfl⟩

theorem getAll_query_spec_witness :
    ∃ col sorted,
      Filters.sortColumn ⟨1, 20, "id", ["id", "-id"]⟩ = some col ∧
      getAllQuery (fun _ _ => true) (fun _ m => m.id)
          [⟨1, "t", "o", "l", ⟨4, 1999⟩, 6, "p", "b", some ["g"], 1, ⟨2, 1998⟩⟩]
          "" [] ⟨1, 20, "id", ["id", "-id"]⟩ =
        some ((sorted.drop (Filters.offset ⟨1, 20, "id", ["id", "-id"]⟩).toNat).take
          (Filters.limit ⟨1, 20, "id", ["id", "-id"]⟩).toNat) ∧
      List.Perm sorted
        ([⟨1, "t", "o", "l", ⟨4, 1999⟩, 6, "p", "b", some ["g"], 1,
          ⟨2, 1998⟩⟩].filter (matchesWhere (fun _ _ => true) "" [])) ∧
      sorted.Pairwise
        (fun a b => rowLE (fun _ m => m.id) col
          (Filters.sortDirection ⟨1, 20, "id", ["id", "-id"]⟩ == "ASC") a b =
            true) ∧
      (∀ r : Movie, matchesWhere (fun _ _ => true) "" [] r = true ↔
        ((("" : String) = "" ∨ (fun (_ _ : String) => true) r.title "" = true) ∧
         (([] : List String) = [] ∨
          ∀ g ∈ ([] : List String), g ∈ r.genres.getD []))) :=
  getAll_query_spec (fun _ _ => true) (fun _ m => m.id)
    [⟨1, "t", "o", "l", ⟨4, 1999⟩, 6, "p", "b", some ["g"], 1, ⟨2, 1998⟩⟩]
    "" [] ⟨1, 20, "id", ["id", "-id"]⟩ (by simp)

/-- C10: whenever the executed query hands back zero rows — in particular
when the resolver's offset lies at or past the last `WHERE`-matching row,
even though matching rows exist in the table — the running total is never
overwritten and stays 0, so `GetAll` returns the empty non-nil slice
together with `calculateMetadata` of 0, the all-zero metadata value. -/
theorem getAll_offset_past_end (fts : String → String → Bool)
    (colVal : String → Movie → Int) (tbl : List Movie) (titleQ : String)
    (genreF : List String) (f : Filters)
    (hsort : f.SortValue ∈ f.SortSafelist)
    (hoff : (tbl.filter (matchesWhere fts titleQ genreF)).length ≤
      f.offset.toNat) :
    ∃ rr, DB.execGetAll fts colVal tbl titleQ genreF f = some rr ∧
      rr.rows = [] ∧
      MovieModel.GetAll f (.ok rr) = (some [], Metadata.zero, none) := by
  have hcol : f.sortColumn = some
      (if f.SortValue.startsWith "-" then f.SortValue.drop 1
       else f.SortValue) := by
    simp [Filters.sortColumn, hsort]
  have hpage : getAllQuery fts colVal tbl titleQ genreF f = some [] := by
    unfold getAllQuery
    rw [hcol]
    have hdrop : ((tbl.filter (matchesWhere fts titleQ genreF)).mergeSort
        (rowLE colVal
          (if f.SortValue.startsWith "-" then f.SortValue.drop 1
           else f.SortValue) (f.sortDirection == "ASC"))).drop
          f.offset.toNat = [] := by
      apply List.drop_eq_nil_of_le
      rwa [List.length_mergeSort]
    simp [hdrop]
  refine ⟨⟨[], none⟩, ?_, rfl, ?_⟩
  · unfold DB.execGetAll
    rw [hpage]
    rfl
  · simp [MovieModel.GetAll, getAllLoop, calculateMetadata]

theorem getAll_offset_past_end_witness :
    ∃ rr, DB.execGetAll (fun _ _ => true) (fun _ m => m.id)
        [⟨1, "t", "o", "l", ⟨4, 1999⟩, 6, "p", "b", some ["g"], 1, ⟨2, 1998⟩⟩]
        "" [] ⟨6, 1, "id", ["id", "-id"]⟩ = some rr ∧
      rr.rows = [] ∧
      MovieModel.GetAll ⟨6, 1, "id", ["id", "-id"]⟩ (.ok rr) =
        (some [], Metadata.zero, none) :=
  getAll_offset_past_end (fun _ _ => true) (fun _ m => m.id)
    [⟨1, "t", "o", "l", ⟨4, 1999⟩, 6, "p", "b", some ["g"], 1, ⟨2, 1998⟩⟩]
    "" [] ⟨6, 1, "id", ["id", "-id"]⟩ (by simp) (by decide)
